import Mathlib

/-! Shallow embedding of the proxy server implemented in src/async.py
    (class ProxyServer).  Python str values are modelled by String; byte
    strings read from sockets are represented through their latin-1
    decoding, and raw body bytes as lists of byte values. -/

/-- Characters Python str.strip() removes (the ASCII whitespace set). -/
def isPySpace (c : Char) : Bool :=
  c = ' ' || c = '\t' || c = '\n' || c = '\r' || c.toNat = 11 || c.toNat = 12

def stripLeading (l : List Char) : List Char := l.dropWhile isPySpace

def stripTrailing (l : List Char) : List Char := (l.reverse.dropWhile isPySpace).reverse

/-- Python str.strip() with no argument: remove surrounding whitespace. -/
def pyStrip (s : String) : String := ⟨stripTrailing (stripLeading s.data)⟩

/-- Python str.rstrip(chars): remove trailing characters drawn from chars. -/
def pyRstrip (chars : List Char) (s : String) : String :=
  ⟨(s.data.reverse.dropWhile (fun c => chars.contains c)).reverse⟩

def isAsciiDigit (c : Char) : Bool := '0' ≤ c && c ≤ '9'

def digitVal (c : Char) : Nat := c.toNat - 48

/-- Remainder of a decimal digit run: Python int() allows a single
    underscore between two digits (PEP 515). -/
def digitsTail (acc : Nat) : List Char → Option Nat
  | [] => some acc
  | '_' :: c :: rest =>
    if isAsciiDigit c then digitsTail (acc * 10 + digitVal c) rest else none
  | ['_'] => none
  | c :: rest =>
    if isAsciiDigit c then digitsTail (acc * 10 + digitVal c) rest else none

def digitsVal : List Char → Option Nat
  | [] => none
  | c :: rest => if isAsciiDigit c then digitsTail (digitVal c) rest else none

/-- Python int(s) on an ASCII decimal string: surrounding whitespace and an
    optional sign are accepted; any other shape raises ValueError (none). -/
def pyInt (s : String) : Option Int :=
  match stripTrailing (stripLeading s.data) with
  | '+' :: rest => (digitsVal rest).map Int.ofNat
  | '-' :: rest => (digitsVal rest).map fun n => -(n : Int)
  | rest => (digitsVal rest).map Int.ofNat

/-- Split at the first occurrence of sep when present; one step of Python
    str.split(sep, maxsplit). -/
def splitAtFirst (sep : Char) : List Char → Option (List Char × List Char)
  | [] => none
  | c :: rest =>
    if c = sep then some ([], rest)
    else (splitAtFirst sep rest).map fun p => (c :: p.1, p.2)

/-- Python str.split(sep, maxsplit) for a one-character separator: empty
    pieces are kept and at most maxsplit breaks are taken. -/
def pySplit (sep : Char) : Nat → List Char → List (List Char)
  | 0, s => [s]
  | n + 1, s =>
    match splitAtFirst sep s with
    | none => [s]
    | some (pre, post) => pre :: pySplit sep n post

def hexDigitChar (n : Nat) : Char :=
  if n < 10 then Char.ofNat (48 + n) else Char.ofNat (87 + n)

def uEscape (n : Nat) : List Char :=
  ['\\', 'u', hexDigitChar (n / 4096 % 16), hexDigitChar (n / 256 % 16),
   hexDigitChar (n / 16 % 16), hexDigitChar (n % 16)]

/-- json.dumps escaping of one character under the default ensure_ascii. -/
def jsonEscapeChar (c : Char) : List Char :=
  if c = '"' then ['\\', '"']
  else if c = '\\' then ['\\', '\\']
  else if c = '\n' then ['\\', 'n']
  else if c = '\r' then ['\\', 'r']
  else if c = '\t' then ['\\', 't']
  else if c.toNat = 8 then ['\\', 'b']
  else if c.toNat = 12 then ['\\', 'f']
  else if c.toNat < 32 then uEscape c.toNat
  else if c.toNat < 128 then [c]
  else if c.toNat < 65536 then uEscape c.toNat
  else uEscape (55296 + (c.toNat - 65536) / 1024) ++ uEscape (56320 + (c.toNat - 65536) % 1024)

def pyJsonDumpsStr (s : String) : String :=
  ⟨'"' :: (s.data.map jsonEscapeChar).flatten ++ ['"']⟩

/-- json.dumps of a flat object with string values, default separators. -/
def pyJsonDumpsObj (fields : List (String × String)) : String :=
  "\x7b" ++ String.intercalate ", "
    (fields.map fun kv => pyJsonDumpsStr kv.1 ++ ": " ++ pyJsonDumpsStr kv.2) ++ "\x7d"

/-- The synthetic 502 body built by json.dumps in forward_request (line 155). -/
def gatewayBody (details : String) : String :=
  pyJsonDumpsObj [("error", "Bad Gateway"), ("details", details)]

/-- A Python dict with string keys and values, as an insertion-ordered
    association list with unique keys. -/
abbrev Headers := List (String × String)

/-- Counters of self.stats (src/async.py lines 40-47).  The wall-clock
    fields start_time and uptime_seconds are not modelled.  Python integers
    are unbounded, hence Int. -/
structure Stats where
  total_requests : Int
  successful_requests : Int
  failed_requests : Int
  active_connections : Int
deriving DecidableEq, Repr

/-- Outcome of the awaited upstream exchange inside forward_request: either
    a response (status, text, and the upstream response headers, which the
    code never reads) or a raised exception carrying str(e). -/
inductive UpstreamOutcome where
  | success (status : Int) (text : String) (respHeaders : List (String × String))
  | failure (errMsg : String)
deriving DecidableEq, Repr

def UpstreamOutcome.isSuccess : UpstreamOutcome → Bool
  | .success _ _ _ => true
  | .failure _ => false

/-- Counter updates performed before the upstream call (lines 139-140). -/
def fwdBegin (st : Stats) : Stats :=
  { st with total_requests := st.total_requests + 1,
            active_connections := st.active_connections + 1 }

/-- Counter updates after the upstream call settles: the success or failure
    counter (line 149 or 154), then the finally decrement (line 158). -/
def fwdEnd (st : Stats) (success : Bool) : Stats :=
  let st1 := if success then
      { st with successful_requests := st.successful_requests + 1 }
    else
      { st with failed_requests := st.failed_requests + 1 }
  { st1 with active_connections := st1.active_connections - 1 }

/-- ProxyServer.forward_request (lines 134-158).  The request arguments are
    handed to the pooled client session, whose behaviour is the outcome o;
    every exception of the exchange is caught and converted to the
    synthetic 502 result, so the function always returns a pair. -/
def forward_request (method url : String) (headers : Headers)
    (data : Option (List Nat)) (st : Stats) (o : UpstreamOutcome) :
    Stats × Int × String :=
  match o with
  | .success status text _ => (fwdEnd (fwdBegin st) true, (status, text))
  | .failure msg => (fwdEnd (fwdBegin st) false, (502, gatewayBody msg))

/-- One completed call to forward_request: its arguments plus the outcome
    of the upstream exchange it observed. -/
structure ForwardCall where
  method : String
  url : String
  headers : Headers
  data : Option (List Nat)
  outcome : UpstreamOutcome
deriving DecidableEq, Repr

/-- Stats state after a sequence of completed forward_request calls. -/
def runForwards (st : Stats) : List ForwardCall → Stats
  | [] => st
  | c :: cs => runForwards (forward_request c.method c.url c.headers c.data st c.outcome).1 cs

/-- ProxyServer.reset_stats (lines 122-132): the stats dict is replaced
    wholesale, all counters returning to zero. -/
def reset_stats : Stats := ⟨0, 0, 0, 0⟩

/-- Interleaving events of the concurrent system: a forward_request reaching
    its pre-call increments, a forward_request settling (success or failure),
    and a control-API stats reset. -/
inductive Event where
  | start
  | finish (success : Bool)
  | reset
deriving DecidableEq, Repr

/-- Global state: the shared stats dict plus the number of forward_request
    calls that have performed fwdBegin but not yet fwdEnd. -/
structure SysState where
  stats : Stats
  inflight : Nat
deriving DecidableEq, Repr

/-- Initial state at process start (stats all zero, nothing in flight). -/
def initState : SysState := ⟨⟨0, 0, 0, 0⟩, 0⟩

/-- One interleaving step.  A finish event is only enabled while at least
    one forward call is in flight; a reset may happen at any time. -/
def step (s : SysState) : Event → Option SysState
  | .start => some ⟨fwdBegin s.stats, s.inflight + 1⟩
  | .finish ok =>
      if s.inflight = 0 then none
      else some ⟨fwdEnd s.stats ok, s.inflight - 1⟩
  | .reset => some ⟨reset_stats, s.inflight⟩

def run (s : SysState) : List Event → Option SysState
  | [] => some s
  | e :: tr =>
    match step s e with
    | none => none
    | some s2 => run s2 tr

/-- States reachable when every reset fires while no forward call is in
    flight (the amended side condition for claim C3). -/
inductive SafeReach : SysState → Prop where
  | init : SafeReach initState
  | next {s s2 : SysState} {e : Event} : SafeReach s → step s e = some s2 →
      (e = Event.reset → s.inflight = 0) → SafeReach s2

/-- Assignment into a Python dict: an existing key keeps its position and
    takes the new value, a fresh key is appended. -/
def dictInsert : Headers → String → String → Headers
  | [], k, v => [(k, v)]
  | (k2, v2) :: rest, k, v =>
    if k2 = k then (k, v) :: rest else (k2, v2) :: dictInsert rest k v

/-- Python dict lookup (keys are unique by construction of dictInsert). -/
def dictLookup : Headers → String → Option String
  | [], _ => none
  | (k2, v2) :: rest, k => if k2 = k then some v2 else dictLookup rest k

/-- One iteration body of the header loop (lines 186-188): a line with a
    colon is split at the first colon and stored stripped; a line without a
    colon is skipped. -/
def processHeaderLine (hs : Headers) (line : String) : Headers :=
  if line.data.contains ':' then
    match splitAtFirst ':' line.data with
    | some (k, v) => dictInsert hs (pyStrip ⟨k⟩) (pyStrip ⟨v⟩)
    | none => hs
  else hs

/-- Request-line parsing (lines 170-176): split(' ', 2), reject fewer than
    three parts, bind method, path and version. -/
def parseRequestLine (line : String) : Option (String × String × String) :=
  match pySplit ' ' 2 line.data with
  | [m, p, v] => some (⟨m⟩, ⟨p⟩, ⟨v⟩)
  | _ => none

/-- Result of one readline() call bounded by wait_for: the raw line via its
    latin-1 decoding (empty at EOF), or an elapsed 10-unit deadline. -/
inductive ReadResult where
  | bytes (raw : String)
  | timeout
deriving DecidableEq, Repr

/-- The header loop (lines 179-188): read lines until a bare CRLF or LF
    terminates the block.  Exhaustion of the read sequence, like a timeout,
    means the request never completes (none). -/
def headerLoop : List ReadResult → Headers → Option Headers
  | [], _ => none
  | ReadResult.timeout :: _, _ => none
  | ReadResult.bytes raw :: rest, hs =>
    if raw = "\r\n" ∨ raw = "\n" then some hs
    else headerLoop rest (processHeaderLine hs (pyRstrip ['\r', '\n'] raw))

/-- Outcome of the optional body read (lines 194-198). -/
inductive BodyResult where
  | ok (body : Option (List Nat))
  | err
deriving DecidableEq, Repr

/-- Body handling: no Content-Length means no read; otherwise int() must
    parse the value (else ValueError), readexactly rejects a negative count
    (ValueError), returns exactly n bytes when available, and raises
    (IncompleteReadError on close, TimeoutError on stall) when fewer than n
    bytes ever arrive. -/
def readBody (hs : Headers) (avail : List Nat) : BodyResult :=
  match dictLookup hs "Content-Length" with
  | none => BodyResult.ok none
  | some v =>
    match pyInt v with
    | none => BodyResult.err
    | some n =>
      if n < 0 then BodyResult.err
      else if n.toNat ≤ avail.length then BodyResult.ok (some (avail.take n.toNat))
      else BodyResult.err

/-- A chunk handed to writer.write, tagged with the encoding the code
    applies to it (lines 207-209). -/
inductive Chunk where
  | latin1 (s : String)
  | utf8 (s : String)
deriving DecidableEq, Repr

/-- Number of bytes Python produces for one character under UTF-8. -/
def pyUtf8CharLen (c : Char) : Nat :=
  if c.toNat < 128 then 1
  else if c.toNat < 2048 then 2
  else if c.toNat < 65536 then 3
  else 4

/-- Byte length of str.encode of a string under UTF-8. -/
def pyUtf8Len (s : String) : Nat := (s.data.map pyUtf8CharLen).sum

/-- Bytes actually written for a chunk.  latin-1 maps each character to one
    byte (all chunk characters here originate from latin-1 decoded input or
    ASCII literals); UTF-8 expands per character. -/
def chunkByteLen : Chunk → Nat
  | Chunk.latin1 s => s.length
  | Chunk.utf8 s => pyUtf8Len s

/-- The response serialisation (lines 204-209): status line reusing the
    client protocol version with fixed reason OK, a Content-Length computed
    with len() on the body string, a fixed Content-Type, a blank line, then
    the body encoded as UTF-8. -/
def encodeResponse (version : String) (status : Int) (response : String) : List Chunk :=
  [Chunk.latin1 (version ++ " " ++ toString status ++ " OK\r\n"),
   Chunk.latin1 ("Content-Length: " ++ toString response.length ++
     "\r\nContent-Type: application/json\r\n\r\n"),
   Chunk.utf8 response]

/-- One accepted client connection: the successive readline results for the
    head section, and the body bytes that ever arrive after it. -/
structure Conn where
  reads : List ReadResult
  bodyAvail : List Nat
deriving DecidableEq, Repr

/-- What one invocation of the connection handler did: the stats dict it
    leaves behind, the forward_request arguments when the forward stage was
    reached (method, target url, headers, optional body), and the chunks
    written back to the client. -/
structure HandlerResult where
  stats : Stats
  forwarded : Option (String × String × Headers × Option (List Nat))
  written : List Chunk
deriving DecidableEq, Repr

/-- ProxyServer.handle_proxy_request (lines 160-218).  Every exception path
    (timeout, malformed line, int() failure, short body) falls through to
    the finally close with nothing written and no forward issued. -/
def handle_proxy_request (targetUrl : String) (st : Stats) (conn : Conn)
    (o : UpstreamOutcome) : HandlerResult :=
  match conn.reads with
  | [] => ⟨st, none, []⟩
  | ReadResult.timeout :: _ => ⟨st, none, []⟩
  | ReadResult.bytes raw :: rest =>
    if raw = "" then ⟨st, none, []⟩
    else
      match parseRequestLine (pyRstrip ['\r', '\n'] raw) with
      | none => ⟨st, none, []⟩
      | some (method, path, version) =>
        match headerLoop rest [] with
        | none => ⟨st, none, []⟩
        | some hs =>
          let target := targetUrl ++ path
          match readBody hs conn.bodyAvail with
          | BodyResult.err => ⟨st, none, []⟩
          | BodyResult.ok body =>
            let r := forward_request method target hs body st o
            ⟨r.1, some (method, target, hs, body), encodeResponse version r.2.1 r.2.2⟩

/-- Claim C1: forward_request never raises to the caller: it returns the
    upstream status and text on success, and on any internal failure a 502
    whose body is a JSON object containing the keys error and details. -/
theorem forward_request_never_raises (method url : String) (hs : Headers)
    (d : Option (List Nat)) (st : Stats) (o : UpstreamOutcome) :
    (∃ s t rh, o = UpstreamOutcome.success s t rh ∧
        (forward_request method url hs d st o).2 = (s, t)) ∨
    ((∃ e, o = UpstreamOutcome.failure e) ∧
        (forward_request method url hs d st o).2.1 = 502 ∧
        ∃ fields, (forward_request method url hs d st o).2.2 = pyJsonDumpsObj fields ∧
          (fields.map Prod.fst).contains "error" = true ∧
          (fields.map Prod.fst).contains "details" = true) := by
  cases o with
  | success s t rh => exact Or.inl ⟨s, t, rh, rfl, rfl⟩
  | failure e =>
      exact Or.inr ⟨⟨e, rfl⟩, rfl,
        ⟨[("error", "Bad Gateway"), ("details", e)], rfl, rfl, rfl⟩⟩

/-- Per-call effect of forward_request on each counter. -/
theorem forward_request_stats (method url : String) (hs : Headers)
    (d : Option (List Nat)) (st : Stats) (o : UpstreamOutcome) :
    (forward_request method url hs d st o).1.total_requests = st.total_requests + 1 ∧
    (forward_request method url hs d st o).1.successful_requests
      = st.successful_requests + (if o.isSuccess then 1 else 0) ∧
    (forward_request method url hs d st o).1.failed_requests
      = st.failed_requests + (if o.isSuccess then 0 else 1) ∧
    (forward_request method url hs d st o).1.active_connections
      = st.active_connections := by
  cases o <;> simp [forward_request, fwdBegin, fwdEnd, UpstreamOutcome.isSuccess]

/-- Cumulative effect of a sequence of completed forward_request calls. -/
theorem runForwards_counters (calls : List ForwardCall) :
    ∀ st : Stats,
      (runForwards st calls).total_requests = st.total_requests + calls.length ∧
      (runForwards st calls).successful_requests + (runForwards st calls).failed_requests
        = st.successful_requests + st.failed_requests + calls.length ∧
      (runForwards st calls).active_connections = st.active_connections := by
  induction calls with
  | nil => intro st; simp [runForwards]
  | cons c cs ih =>
      intro st
      obtain ⟨h1, h2, h3, h4⟩ :=
        forward_request_stats c.method c.url c.headers c.data st c.outcome
      obtain ⟨g1, g2, g3⟩ := ih (forward_request c.method c.url c.headers c.data st c.outcome).1
      simp only [runForwards] at g1 g2 g3 ⊢
      cases hb : c.outcome.isSuccess <;> rw [hb] at h2 h3 <;> simp at h2 h3 <;>
        simp only [List.length_cons, Nat.cast_add, Nat.cast_one] at g1 g2 ⊢ <;> omega

/-- Claim C2: every forward_request call increments total_requests by one
    before the upstream call (fwdBegin), settles exactly one of
    successful_requests or failed_requests, and nets active_connections to
    zero; hence any sequence of completed calls preserves
    total_requests = successful_requests + failed_requests and restores
    active_connections. -/
theorem forward_request_stats_accounting (method url : String) (hs : Headers)
    (d : Option (List Nat)) (st : Stats) (o : UpstreamOutcome)
    (calls : List ForwardCall)
    (hsum : st.total_requests = st.successful_requests + st.failed_requests) :
    (fwdBegin st).total_requests = st.total_requests + 1 ∧
    (fwdBegin st).active_connections = st.active_connections + 1 ∧
    (forward_request method url hs d st o).1.total_requests = st.total_requests + 1 ∧
    (forward_request method url hs d st o).1.successful_requests
      = st.successful_requests + (if o.isSuccess then 1 else 0) ∧
    (forward_request method url hs d st o).1.failed_requests
      = st.failed_requests + (if o.isSuccess then 0 else 1) ∧
    (forward_request method url hs d st o).1.active_connections
      = st.active_connections ∧
    (runForwards st calls).total_requests
      = (runForwards st calls).successful_requests
        + (runForwards st calls).failed_requests ∧
    (runForwards st calls).active_connections = st.active_connections := by
  obtain ⟨h1, h2, h3, h4⟩ := forward_request_stats method url hs d st o
  obtain ⟨g1, g2, g3⟩ := runForwards_counters calls st
  exact ⟨rfl, rfl, h1, h2, h3, h4, by omega, g3⟩

/-- Witness for C2 at one concrete failed call from fresh stats. -/
theorem forward_request_stats_accounting_witness :
    (runForwards ⟨0, 0, 0, 0⟩
        [⟨"GET", "http://t/x", [], none, UpstreamOutcome.failure "boom"⟩]).total_requests
      = (runForwards ⟨0, 0, 0, 0⟩
          [⟨"GET", "http://t/x", [], none, UpstreamOutcome.failure "boom"⟩]).successful_requests
        + (runForwards ⟨0, 0, 0, 0⟩
            [⟨"GET", "http://t/x", [], none, UpstreamOutcome.failure "boom"⟩]).failed_requests :=
  (forward_request_stats_accounting "GET" "http://t/x" [] none ⟨0, 0, 0, 0⟩
    (UpstreamOutcome.failure "boom")
    [⟨"GET", "http://t/x", [], none, UpstreamOutcome.failure "boom"⟩] rfl).2.2.2.2.2.2.1

/-- Claim C3 counterexample: a stats reset racing with one in-flight
    forward call drives active_connections to -1: the trace starts a
    forward, resets stats, then lets the forward settle. -/
theorem active_connections_reset_counterexample :
    run initState [Event.start, Event.reset, Event.finish true]
      = some ⟨⟨0, 1, 0, -1⟩, 0⟩ ∧
    (⟨⟨0, 1, 0, -1⟩, 0⟩ : SysState).stats.active_connections < 0 := by
  decide

/-- In safely reachable states the active counter mirrors the number of
    in-flight forward calls. -/
theorem safeReach_active_eq_inflight (s : SysState) (h : SafeReach s) :
    s.stats.active_connections = (s.inflight : Int) := by
  induction h with
  | init => rfl
  | @next s s2 e hs hstep hres ih =>
      cases e with
      | start =>
          simp only [step] at hstep
          cases hstep
          simp [fwdBegin]
          omega
      | finish ok =>
          by_cases hz : s.inflight = 0
          · simp [step, hz] at hstep
          · simp only [step] at hstep
            rw [if_neg hz] at hstep
            cases hstep
            cases ok <;> simp [fwdEnd] <;> omega
      | reset =>
          have hzero : s.inflight = 0 := hres rfl
          simp only [step] at hstep
          cases hstep
          simp [reset_stats, hzero]

/-- Claim C3 amended: active_connections stays nonnegative in every state
    reachable under interleavings where a stats reset only fires while no
    forward call is in flight. -/
theorem active_connections_nonneg_safe_reset (s : SysState) (h : SafeReach s) :
    0 ≤ s.stats.active_connections := by
  have he := safeReach_active_eq_inflight s h
  omega

/-- Witness for amended C3 at a state reached by one start step. -/
theorem active_connections_nonneg_safe_reset_witness :
    0 ≤ ((⟨fwdBegin ⟨0, 0, 0, 0⟩, 1⟩ : SysState)).stats.active_connections :=
  active_connections_nonneg_safe_reset ⟨fwdBegin ⟨0, 0, 0, 0⟩, 1⟩
    (@SafeReach.next initState ⟨fwdBegin ⟨0, 0, 0, 0⟩, 1⟩ Event.start
      SafeReach.init rfl (fun hc => nomatch hc))

/-- A separator absent from the list means no split is found. -/
theorem splitAtFirst_of_not_mem (sep : Char) :
    ∀ l : List Char, sep ∉ l → splitAtFirst sep l = none := by
  intro l
  induction l with
  | nil => intro _; rfl
  | cons c rest ih =>
      intro h
      have hc : ¬ c = sep := fun he => h (he ▸ List.mem_cons_self c rest)
      simp [splitAtFirst, hc, ih (fun hm => h (List.mem_cons_of_mem c hm))]

/-- Splitting finds the first separator occurrence. -/
theorem splitAtFirst_append (sep : Char) :
    ∀ l1 l2 : List Char, sep ∉ l1 →
      splitAtFirst sep (l1 ++ sep :: l2) = some (l1, l2) := by
  intro l1
  induction l1 with
  | nil => intro l2 _; simp [splitAtFirst]
  | cons c rest ih =>
      intro l2 h
      have hc : ¬ c = sep := fun he => h (he ▸ List.mem_cons_self c rest)
      simp [splitAtFirst, hc, ih l2 (fun hm => h (List.mem_cons_of_mem c hm))]

/-- Fewer than three pieces from split(' ', 2) means the request line is
    rejected. -/
theorem parseRequestLine_eq_none (line : String)
    (h : (pySplit ' ' 2 line.data).length < 3) :
    parseRequestLine line = none := by
  unfold parseRequestLine
  cases hsp : pySplit ' ' 2 line.data with
  | nil => rfl
  | cons a t =>
    cases t with
    | nil => rfl
    | cons b t2 =>
      cases t2 with
      | nil => rfl
      | cons c t3 =>
        exfalso
        rw [hsp] at h
        simp at h
        omega

/-- Dict assignment stores the value under the key. -/
theorem dictLookup_insert_self (hs : Headers) (k v : String) :
    dictLookup (dictInsert hs k v) k = some v := by
  induction hs with
  | nil => simp [dictInsert, dictLookup]
  | cons kv rest ih =>
      obtain ⟨k2, v2⟩ := kv
      by_cases h : k2 = k <;> simp [dictInsert, dictLookup, h, ih]

/-- Dict assignment leaves every other key unchanged. -/
theorem dictLookup_insert_other (hs : Headers) (k v k2 : String) (h : k2 ≠ k) :
    dictLookup (dictInsert hs k v) k2 = dictLookup hs k2 := by
  have hk : k ≠ k2 := Ne.symm h
  induction hs with
  | nil => simp [dictInsert, dictLookup, hk]
  | cons kv rest ih =>
      obtain ⟨k3, v3⟩ := kv
      by_cases h3 : k3 = k
      · subst h3
        simp [dictInsert, dictLookup, hk]
      · simp only [dictInsert, if_neg h3, dictLookup]
        by_cases h4 : k3 = k2 <;> simp [h4, ih]

/-- Claim C4: a request line whose split(' ', 2) yields fewer than three
    pieces makes the handler close the connection with zero bytes written
    and nothing forwarded; otherwise the first token is the method, the
    second the path, and the whole remainder (internal spaces included)
    the version. -/
theorem request_line_parsing (targetUrl : String) (st : Stats) (conn : Conn)
    (o : UpstreamOutcome) (raw : String) (rest : List ReadResult)
    (m p v : List Char)
    (hr : conn.reads = ReadResult.bytes raw :: rest) :
    ((pySplit ' ' 2 (pyRstrip ['\r', '\n'] raw).data).length < 3 →
      handle_proxy_request targetUrl st conn o = ⟨st, none, []⟩) ∧
    (' ' ∉ m → ' ' ∉ p →
      parseRequestLine ⟨m ++ ' ' :: p ++ ' ' :: v⟩ = some (⟨m⟩, ⟨p⟩, ⟨v⟩)) := by
  constructor
  · intro hlen
    by_cases hraw : raw = ""
    · simp [handle_proxy_request, hr, hraw]
    · simp [handle_proxy_request, hr, hraw, parseRequestLine_eq_none _ hlen]
  · intro h1 h2
    unfold parseRequestLine
    simp [pySplit, splitAtFirst_append ' ' m (p ++ ' ' :: v) h1,
      splitAtFirst_append ' ' p v h2]

/-- Witness for C4: a two-token request line writes nothing back, and a
    three-plus-token line binds method, path and spacey version. -/
theorem request_line_parsing_witness :
    handle_proxy_request "http://t" ⟨0, 0, 0, 0⟩
        ⟨[ReadResult.bytes "GET /x\r\n"], []⟩ (UpstreamOutcome.failure "e")
      = ⟨⟨0, 0, 0, 0⟩, none, []⟩ ∧
    parseRequestLine ⟨"GET".data ++ ' ' :: "/a".data ++ ' ' :: "b HTTP/1.1".data⟩
      = some (⟨"GET".data⟩, ⟨"/a".data⟩, ⟨"b HTTP/1.1".data⟩) :=
  ⟨(request_line_parsing "http://t" ⟨0, 0, 0, 0⟩
      ⟨[ReadResult.bytes "GET /x\r\n"], []⟩ (UpstreamOutcome.failure "e")
      "GET /x\r\n" [] "GET".data "/a".data "b HTTP/1.1".data rfl).1 (by decide),
   (request_line_parsing "http://t" ⟨0, 0, 0, 0⟩
      ⟨[ReadResult.bytes "GET /x\r\n"], []⟩ (UpstreamOutcome.failure "e")
      "GET /x\r\n" [] "GET".data "/a".data "b HTTP/1.1".data rfl).2
     (by decide) (by decide)⟩

/-- Claim C5: a header line without a colon is skipped; a line with a colon
    is split at its first colon into a stripped key and value; assignment
    overwrites an earlier value for the same key and touches no other key;
    a bare CRLF terminates the header block with the accumulated dict. -/
theorem header_line_handling (hs : Headers) (line : String) (k v : List Char)
    (key val k2 : String) (rest : List ReadResult) :
    (':' ∉ line.data → processHeaderLine hs line = hs) ∧
    (line.data = k ++ ':' :: v → ':' ∉ k →
      processHeaderLine hs line = dictInsert hs (pyStrip ⟨k⟩) (pyStrip ⟨v⟩)) ∧
    dictLookup (dictInsert hs key val) key = some val ∧
    (k2 ≠ key → dictLookup (dictInsert hs key val) k2 = dictLookup hs k2) ∧
    headerLoop (ReadResult.bytes "\r\n" :: rest) hs = some hs := by
  refine ⟨?_, ?_, dictLookup_insert_self hs key val,
    fun hne => dictLookup_insert_other hs key val k2 hne, by simp [headerLoop]⟩
  · intro hnc
    have hfalse : line.data.contains ':' = false := by simpa using hnc
    unfold processHeaderLine
    rw [hfalse]
    simp
  · intro hdata hnk
    have hmem : ':' ∈ line.data := by rw [hdata]; simp
    have htrue : line.data.contains ':' = true := by simpa using hmem
    unfold processHeaderLine
    rw [htrue, hdata]
    simp [splitAtFirst_append ':' k v hnk]

/-- Witness for C5 on concrete header lines: a colon-free line is skipped,
    a colon line is stored stripped, and a duplicate key is overwritten. -/
theorem header_line_handling_witness :
    processHeaderLine [("Host", "a")] "no colon here" = [("Host", "a")] ∧
    processHeaderLine [("Host", "a")] "Accept:  text/html "
      = dictInsert [("Host", "a")] (pyStrip ⟨"Accept".data⟩)
          (pyStrip ⟨"  text/html ".data⟩) ∧
    dictLookup (dictInsert [("Host", "a")] "Host" "b") "Host" = some "b" ∧
    dictLookup (dictInsert [("Host", "a")] "Host" "b") "Accept"
      = dictLookup [("Host", "a")] "Accept" ∧
    headerLoop [ReadResult.bytes "\r\n"] [("Host", "a")] = some [("Host", "a")] := by
  obtain ⟨h1, h2, h3, h4, h5⟩ :=
    header_line_handling [("Host", "a")] "no colon here" "Accept".data
      "  text/html ".data "Host" "b" "Accept" []
  refine ⟨h1 (by decide), ?_, h3, h4 (by decide), h5⟩
  obtain ⟨_, g2, _, _, _⟩ :=
    header_line_handling [("Host", "a")] "Accept:  text/html " "Accept".data
      "  text/html ".data "Host" "b" "Accept" []
  exact g2 (by decide) (by decide)

/-- Claim C6: with Content-Length N and at least N bytes available the
    handler forwards exactly the first N body bytes; with fewer than N
    bytes the request fails with nothing forwarded and nothing written; and
    without a Content-Length header the forwarded body stays absent. -/
theorem content_length_body_handling (targetUrl : String) (st : Stats)
    (conn : Conn) (o : UpstreamOutcome) (raw : String)
    (rest : List ReadResult) (m p v : String) (hs : Headers)
    (hr : conn.reads = ReadResult.bytes raw :: rest) (hraw : raw ≠ "")
    (hparse : parseRequestLine (pyRstrip ['\r', '\n'] raw) = some (m, p, v))
    (hhl : headerLoop rest [] = some hs) :
    (∀ cl (n : Nat), dictLookup hs "Content-Length" = some cl →
      pyInt cl = some (n : Int) → n ≤ conn.bodyAvail.length →
      (handle_proxy_request targetUrl st conn o).forwarded
          = some (m, targetUrl ++ p, hs, some (conn.bodyAvail.take n)) ∧
        (conn.bodyAvail.take n).length = n) ∧
    (∀ cl (n : Nat), dictLookup hs "Content-Length" = some cl →
      pyInt cl = some (n : Int) → conn.bodyAvail.length < n →
      handle_proxy_request targetUrl st conn o = ⟨st, none, []⟩) ∧
    (dictLookup hs "Content-Length" = none →
      (handle_proxy_request targetUrl st conn o).forwarded
        = some (m, targetUrl ++ p, hs, none)) := by
  refine ⟨?_, ?_, ?_⟩
  · intro cl n hcl hint hle
    have h0 : ¬ ((n : Int) < 0) := by omega
    have hbody : readBody hs conn.bodyAvail
        = BodyResult.ok (some (conn.bodyAvail.take n)) := by
      simp only [readBody, hcl, hint]
      rw [if_neg h0]
      simp [hle]
    constructor
    · simp [handle_proxy_request, hr, hraw, hparse, hhl, hbody]
    · simp [List.length_take]
      omega
  · intro cl n hcl hint hgt
    have h0 : ¬ ((n : Int) < 0) := by omega
    have h1 : ¬ (((n : Int)).toNat ≤ conn.bodyAvail.length) := by omega
    have hbody : readBody hs conn.bodyAvail = BodyResult.err := by
      simp only [readBody, hcl, hint]
      rw [if_neg h0, if_neg h1]
    simp [handle_proxy_request, hr, hraw, hparse, hhl, hbody]
  · intro hnone
    have hbody : readBody hs conn.bodyAvail = BodyResult.ok none := by
      simp only [readBody, hnone]
    simp [handle_proxy_request, hr, hraw, hparse, hhl, hbody]

/-- Witness for C6 on a concrete request: Content-Length 3 with four bytes
    available forwards exactly the first three bytes. -/
theorem content_length_body_handling_witness :
    (handle_proxy_request "http://t" ⟨0, 0, 0, 0⟩
        ⟨[ReadResult.bytes "POST /x HTTP/1.1\r\n",
          ReadResult.bytes "Content-Length: 3\r\n", ReadResult.bytes "\r\n"],
         [97, 98, 99, 100]⟩
        (UpstreamOutcome.success 200 "hi" [])).forwarded
      = some ("POST", "http://t/x", [("Content-Length", "3")],
          some [97, 98, 99]) :=
  ((content_length_body_handling "http://t" ⟨0, 0, 0, 0⟩
      ⟨[ReadResult.bytes "POST /x HTTP/1.1\r\n",
        ReadResult.bytes "Content-Length: 3\r\n", ReadResult.bytes "\r\n"],
       [97, 98, 99, 100]⟩
      (UpstreamOutcome.success 200 "hi" []) "POST /x HTTP/1.1\r\n"
      [ReadResult.bytes "Content-Length: 3\r\n", ReadResult.bytes "\r\n"]
      "POST" "/x" "HTTP/1.1" [("Content-Length", "3")]
      rfl (by decide) (by decide) (by decide)).1 "3" 3
    (by decide) (by decide) (by decide)).1

/-- Claim C9: a Content-Length header whose value int() cannot parse makes
    the handler close the connection with zero bytes written, no forward
    issued and the stats untouched (the ValueError lands in the generic
    except path). -/
theorem invalid_content_length_closes (targetUrl : String) (st : Stats)
    (conn : Conn) (o : UpstreamOutcome) (raw : String)
    (rest : List ReadResult) (m p v : String) (hs : Headers) (cl : String)
    (hr : conn.reads = ReadResult.bytes raw :: rest) (hraw : raw ≠ "")
    (hparse : parseRequestLine (pyRstrip ['\r', '\n'] raw) = some (m, p, v))
    (hhl : headerLoop rest [] = some hs)
    (hcl : dictLookup hs "Content-Length" = some cl)
    (hint : pyInt cl = none) :
    handle_proxy_request targetUrl st conn o = ⟨st, none, []⟩ := by
  have hbody : readBody hs conn.bodyAvail = BodyResult.err := by
    simp only [readBody, hcl, hint]
  simp [handle_proxy_request, hr, hraw, hparse, hhl, hbody]

/-- Witness for C9: Content-Length abc closes the connection silently. -/
theorem invalid_content_length_closes_witness :
    handle_proxy_request "http://t" ⟨0, 0, 0, 0⟩
        ⟨[ReadResult.bytes "POST /x HTTP/1.1\r\n",
          ReadResult.bytes "Content-Length: abc\r\n", ReadResult.bytes "\r\n"],
         [97, 98]⟩
        (UpstreamOutcome.success 200 "hi" [])
      = ⟨⟨0, 0, 0, 0⟩, none, []⟩ :=
  invalid_content_length_closes "http://t" ⟨0, 0, 0, 0⟩
    ⟨[ReadResult.bytes "POST /x HTTP/1.1\r\n",
      ReadResult.bytes "Content-Length: abc\r\n", ReadResult.bytes "\r\n"],
     [97, 98]⟩
    (UpstreamOutcome.success 200 "hi" []) "POST /x HTTP/1.1\r\n"
    [ReadResult.bytes "Content-Length: abc\r\n", ReadResult.bytes "\r\n"]
    "POST" "/x" "HTTP/1.1" [("Content-Length", "abc")] "abc"
    rfl (by decide) (by decide) (by decide) (by decide) (by decide)

/-- Claim C7: a successfully forwarded request is answered with exactly the
    client protocol version, the relayed status, the fixed reason OK and
    CRLF, then Content-Length and the fixed Content-Type header, a blank
    line, and the body; the upstream response headers have no influence on
    the handler (only status and body survive the relay). -/
theorem response_encoding (targetUrl : String) (st : Stats) (conn : Conn)
    (raw : String) (rest : List ReadResult) (m p v : String) (hs : Headers)
    (b : Option (List Nat)) (s : Int) (t : String)
    (rh rh2 : List (String × String))
    (hr : conn.reads = ReadResult.bytes raw :: rest) (hraw : raw ≠ "")
    (hparse : parseRequestLine (pyRstrip ['\r', '\n'] raw) = some (m, p, v))
    (hhl : headerLoop rest [] = some hs)
    (hbody : readBody hs conn.bodyAvail = BodyResult.ok b) :
    (handle_proxy_request targetUrl st conn
        (UpstreamOutcome.success s t rh)).written
      = [Chunk.latin1 (v ++ " " ++ toString s ++ " OK\r\n"),
         Chunk.latin1 ("Content-Length: " ++ toString t.length ++
           "\r\nContent-Type: application/json\r\n\r\n"),
         Chunk.utf8 t] ∧
    handle_proxy_request targetUrl st conn (UpstreamOutcome.success s t rh)
      = handle_proxy_request targetUrl st conn (UpstreamOutcome.success s t rh2) := by
  constructor <;>
    simp [handle_proxy_request, hr, hraw, hparse, hhl, hbody, forward_request,
      encodeResponse]

/-- Witness for C7 on a concrete GET relayed with status 404: the status
    line still says OK and the upstream header list is irrelevant. -/
theorem response_encoding_witness :
    (handle_proxy_request "http://t" ⟨0, 0, 0, 0⟩
        ⟨[ReadResult.bytes "GET /a HTTP/1.1\r\n", ReadResult.bytes "\r\n"], []⟩
        (UpstreamOutcome.success 404 "nope" [("Server", "x")])).written
      = [Chunk.latin1 ("HTTP/1.1" ++ " " ++ toString (404 : Int) ++ " OK\r\n"),
         Chunk.latin1 ("Content-Length: " ++ toString ("nope" : String).length ++
           "\r\nContent-Type: application/json\r\n\r\n"),
         Chunk.utf8 "nope"] ∧
    handle_proxy_request "http://t" ⟨0, 0, 0, 0⟩
        ⟨[ReadResult.bytes "GET /a HTTP/1.1\r\n", ReadResult.bytes "\r\n"], []⟩
        (UpstreamOutcome.success 404 "nope" [("Server", "x")])
      = handle_proxy_request "http://t" ⟨0, 0, 0, 0⟩
          ⟨[ReadResult.bytes "GET /a HTTP/1.1\r\n", ReadResult.bytes "\r\n"], []⟩
          (UpstreamOutcome.success 404 "nope" []) :=
  response_encoding "http://t" ⟨0, 0, 0, 0⟩
    ⟨[ReadResult.bytes "GET /a HTTP/1.1\r\n", ReadResult.bytes "\r\n"], []⟩
    "GET /a HTTP/1.1\r\n" [ReadResult.bytes "\r\n"] "GET" "/a" "HTTP/1.1" []
    none 404 "nope" [("Server", "x")] []
    rfl (by decide) (by decide) (by decide) (by decide)

/-- Every character costs at least one UTF-8 byte. -/
theorem one_le_pyUtf8CharLen (c : Char) : 1 ≤ pyUtf8CharLen c := by
  unfold pyUtf8CharLen
  repeat' split
  all_goals omega

/-- A character costs exactly one UTF-8 byte precisely when it is ASCII. -/
theorem pyUtf8CharLen_eq_one_iff (c : Char) :
    pyUtf8CharLen c = 1 ↔ c.toNat < 128 := by
  unfold pyUtf8CharLen
  repeat' split
  all_goals omega

/-- The UTF-8 byte count of a list of characters dominates its length. -/
theorem length_le_utf8Sum (l : List Char) :
    l.length ≤ (l.map pyUtf8CharLen).sum := by
  induction l with
  | nil => simp
  | cons c rest ih =>
      have := one_le_pyUtf8CharLen c
      simp [List.sum_cons]
      omega

/-- The UTF-8 byte count equals the character count exactly when every
    character costs one byte. -/
theorem utf8Sum_eq_length_iff (l : List Char) :
    (l.map pyUtf8CharLen).sum = l.length ↔ ∀ c ∈ l, pyUtf8CharLen c = 1 := by
  induction l with
  | nil => simp
  | cons c rest ih =>
      have h1 := one_le_pyUtf8CharLen c
      have h2 := length_le_utf8Sum rest
      simp only [List.map_cons, List.sum_cons, List.length_cons,
        List.mem_cons, forall_eq_or_imp]
      constructor
      · intro he
        have hc1 : pyUtf8CharLen c = 1 := by omega
        exact ⟨hc1, ih.mp (by omega)⟩
      · rintro ⟨hc, hall⟩
        have := ih.mpr hall
        omega

/-- Claim C10: the declared Content-Length is the character count of the
    body string, the body chunk itself costs its UTF-8 byte count on the
    wire, and the two agree exactly when every body character encodes to
    one UTF-8 byte, that is, when the body is pure ASCII. -/
theorem content_length_char_count (version : String) (status : Int)
    (body : String) :
    (encodeResponse version status body).map chunkByteLen
      = [(version ++ " " ++ toString status ++ " OK\r\n").length,
         ("Content-Length: " ++ toString body.length ++
           "\r\nContent-Type: application/json\r\n\r\n").length,
         pyUtf8Len body] ∧
    (pyUtf8Len body = body.length ↔ ∀ c ∈ body.data, pyUtf8CharLen c = 1) ∧
    ∀ c : Char, pyUtf8CharLen c = 1 ↔ c.toNat < 128 := by
  refine ⟨by simp [encodeResponse, chunkByteLen], ?_,
    fun c => pyUtf8CharLen_eq_one_iff c⟩
  exact utf8Sum_eq_length_iff body.data
